import Mathlib

set_option autoImplicit false

/-! Verification development for the ArangoDB cluster-supervision slice:
endpoint specification parsing (src/lib/Endpoint/Endpoint.cpp), AQL graph
construction from persisted records (src/arangod/Aql/Graphs.cpp), and the
agency job framework around CleanOutServer (src/arangod/Agency/CleanOutServer.h).
Machine strings are embedded as `List Char`; fallible code returns `Option`
or `Except`. -/

namespace Arango

/-! Section 1: string utilities.  `StringUtils::tolower`, `trimInPlace`,
`isPrefix`, `std::string::find` and `substr` as used by Endpoint.cpp.
These helpers live outside src/ but have fixed, well-known semantics
(ASCII lowercasing; trimming the character set " \t\r\n"; substring search). -/

/-- ASCII `tolower` applied to one character. -/
def charToLower (c : Char) : Char :=
  if 'A' ≤ c ∧ c ≤ 'Z' then Char.ofNat (c.toNat + 32) else c

/-- `StringUtils::tolower`: lowercase every character. -/
def strToLower (s : List Char) : List Char := s.map charToLower

/-- Characters trimmed by `StringUtils::trimInPlace` (default trim set). -/
def isTrimChar (c : Char) : Bool := c = ' ' || c = '\t' || c = '\n' || c = '\r'

/-- `StringUtils::trimInPlace`: drop trim characters from both ends. -/
def trimList (s : List Char) : List Char :=
  ((s.dropWhile isTrimChar).reverse.dropWhile isTrimChar).reverse

/-- `std::string::find(char, pos)`: first index `≥ start` holding `c`. -/
def findCharFrom (s : List Char) (c : Char) (start : Nat) : Option Nat :=
  match (s.drop start).findIdx? (fun x => x = c) with
  | some i => some (start + i)
  | none => none

/-- Helper for substring search: first offset where `pat` is a prefix. -/
def findSubAux (pat : List Char) : List Char → Nat → Option Nat
  | [], i => if pat = [] then some i else none
  | c :: rest, i =>
    if pat.isPrefixOf (c :: rest) then some i else findSubAux pat rest (i + 1)

/-- `std::string::find(pat, pos)`: first index `≥ start` where `pat` occurs. -/
def findSubFrom (s : List Char) (pat : List Char) (start : Nat) : Option Nat :=
  match findSubAux pat (s.drop start) 0 with
  | some i => some (start + i)
  | none => none

/-! Section 2: the Endpoint model (src/lib/Endpoint/Endpoint.cpp).
The build configuration modelled is the Unix one: domain sockets available
(`ARANGODB_HAVE_DOMAIN_SOCKETS`), not `_WIN32`, release build
(`TRI_ASSERT` is a no-op). -/

inductive TransportType
  | http
  | vpp
  deriving DecidableEq, Repr

inductive EndpointType
  | server
  | client
  deriving DecidableEq, Repr

inductive EncryptionType
  | none
  | ssl
  deriving DecidableEq, Repr

/-- `EndpointIp::_defaultPortHttp` (value from EndpointIp, outside src/;
the exact number is irrelevant to the theorems below). -/
def defaultPortHttp : Nat := 8529

/-- `EndpointIp::_defaultPortVpp`. -/
def defaultPortVpp : Nat := 8530

/-- `StringUtils::itoa` on an unsigned value. -/
def natToChars (n : Nat) : List Char := (Nat.repr n).toList

/-- `StringUtils::uint32`: parse leading decimal digits, truncated to 32 bits. -/
def parseLeadingDigits : List Char → Nat → Nat
  | c :: rest, acc =>
    if c.isDigit then parseLeadingDigits rest (acc * 10 + (c.toNat - 48)) else acc
  | [], acc => acc

def stringUtilsUint32 (s : List Char) : Nat := parseLeadingDigits s 0 % 2 ^ 32

/-- The C++ cast `(uint16_t)`. -/
def toUint16 (n : Nat) : Nat := n % 2 ^ 16

/-- Slash adjustment of `Endpoint::unifiedForm` (Endpoint.cpp lines 70-73):
the check reads the last character of the original `specification`, the
removal acts on the lowercased, trimmed `copy`. -/
def slashAdjusted (specification copy0 : List Char) : List Char :=
  if specification.getLast? = some '/' then copy0.take (copy0.length - 1) else copy0

/-- Protocol parsing of `Endpoint::unifiedForm` (Endpoint.cpp lines 64-86):
two consecutive (non-exclusive) tests; a `vpp+` marker is rewritten to
`vsp+`.  Returns (protocol, rewritten marker, remaining specification). -/
def protocolParse (copy1 : List Char) : TransportType × List Char × List Char :=
  let p1 : TransportType × List Char × List Char :=
    if ("http+".toList).isPrefixOf copy1 then
      (TransportType.http, "http+".toList, copy1.drop 5)
    else (TransportType.http, "http+".toList, copy1)
  if ("vpp+".toList).isPrefixOf p1.2.2 then
    (TransportType.vpp, "vsp+".toList, p1.2.2.drop 4)
  else p1

/-- Test of Endpoint.cpp lines 116-120: an IPv6 address of the form
`[address]:port` follows (in `temp`, the specification after `tcp://`/`ssl://`). -/
def ipv6HostPortOk (temp : List Char) : Bool :=
  match findSubFrom temp ("]:".toList) 1 with
  | some found => decide (2 < found) && decide (found + 2 < temp.length)
  | none => false

/-- Test of Endpoint.cpp lines 122-132: an IPv6 address of the form
`[address]` with no port follows. -/
def ipv6HostOnlyOk (temp : List Char) : Bool :=
  match findSubFrom temp ("]".toList) 1 with
  | some found => decide (2 < found) && decide (found + 1 = temp.length)
  | none => false

/-- Test of Endpoint.cpp lines 139-144: `hostname:port` follows. -/
def ipv4HostPortOk (temp : List Char) : Bool :=
  match findCharFrom temp ':' 0 with
  | some found => decide (found + 1 < temp.length)
  | none => false

/-- Tail of `Endpoint::unifiedForm` after protocol parsing (Endpoint.cpp
lines 88-154): `pfx` is the already-rewritten protocol marker, `copy` the
specification with its protocol marker stripped. -/
def unifiedFormTail (protocol : TransportType) (pfx copy : List Char) : List Char :=
  if ("unix://".toList).isPrefixOf copy then pfx ++ copy
  else if ("srv://".toList).isPrefixOf copy then pfx ++ copy
  else if !(("ssl://".toList).isPrefixOf copy) && !(("tcp://".toList).isPrefixOf copy) then []
  else if (copy.drop 6).headD (Char.ofNat 0) = '[' then
    if ipv6HostPortOk (copy.drop 6) then pfx ++ copy
    else if ipv6HostOnlyOk (copy.drop 6) then
      if protocol = TransportType.vpp then
        pfx ++ copy ++ (":".toList) ++ natToChars defaultPortVpp
      else
        pfx ++ copy ++ (":".toList) ++ natToChars defaultPortHttp
    else []
  else if ipv4HostPortOk (copy.drop 6) then pfx ++ copy
  else if protocol = TransportType.http then
    pfx ++ copy ++ (":".toList) ++ natToChars defaultPortHttp
  else
    pfx ++ copy ++ (":".toList) ++ natToChars defaultPortVpp

/-- `Endpoint::unifiedForm` (Endpoint.cpp lines 57-154). -/
def unifiedFormList (specification : List Char) : List Char :=
  if specification.length < 7 then []
  else
    unifiedFormTail
      (protocolParse (slashAdjusted specification (trimList (strToLower specification)))).1
      (protocolParse (slashAdjusted specification (trimList (strToLower specification)))).2.1
      (protocolParse (slashAdjusted specification (trimList (strToLower specification)))).2.2

/-- Data of a concrete IP endpoint object (EndpointIpV4 / EndpointIpV6). -/
structure IpEndpoint where
  etype : EndpointType
  protocol : TransportType
  encryption : EncryptionType
  listenBacklog : Nat
  reuseAddress : Bool
  host : List Char
  port : Nat
  deriving DecidableEq, Repr

/-- The concrete endpoint object `Endpoint::factory` constructs. -/
inductive EndpointDesc
  | unixDomain (etype : EndpointType) (listenBacklog : Nat) (path : List Char)
  | srv (host : List Char)
  | ipV6 (e : IpEndpoint)
  | ipV4 (e : IpEndpoint)
  deriving DecidableEq, Repr

/-- Tail of `Endpoint::factory` after protocol parsing (Endpoint.cpp
lines 212-299): `copy` is the unified form with its protocol marker stripped. -/
def factoryTail (etype : EndpointType) (protocol : TransportType) (lb : Nat)
    (reuseAddress : Bool) (copy : List Char) : Option EndpointDesc :=
  if ("unix://".toList).isPrefixOf copy then
    if protocol ≠ TransportType.http then none
    else some (EndpointDesc.unixDomain etype lb (copy.drop 7))
  else if ("srv://".toList).isPrefixOf copy then
    if etype ≠ EndpointType.client then none
    else if protocol ≠ TransportType.http then none
    else some (EndpointDesc.srv (copy.drop 6))
  else
    let sslB := ("ssl://".toList).isPrefixOf copy
    if !sslB && !(("tcp://".toList).isPrefixOf copy) then none
    else
      let encryption := if sslB then EncryptionType.ssl else EncryptionType.none
      let copy2 := copy.drop 6
      let defaultPort :=
        if protocol = TransportType.http then defaultPortHttp else defaultPortVpp
      if copy2.headD (Char.ofNat 0) = '[' then
        match findSubFrom copy2 ("]:".toList) 1 with
        | some found =>
          if decide (2 < found) && decide (found + 2 < copy2.length) then
            some (EndpointDesc.ipV6
              ⟨etype, protocol, encryption, lb, reuseAddress,
               (copy2.drop 1).take (found - 1),
               toUint16 (stringUtilsUint32 (copy2.drop (found + 2)))⟩)
          else
            match findSubFrom copy2 ("]".toList) 1 with
            | some found2 =>
              if decide (2 < found2) && decide (found2 + 1 = copy2.length) then
                some (EndpointDesc.ipV6
                  ⟨etype, protocol, encryption, lb, reuseAddress,
                   (copy2.drop 1).take (found2 - 1), defaultPort⟩)
              else none
            | none => none
        | none =>
          match findSubFrom copy2 ("]".toList) 1 with
          | some found2 =>
            if decide (2 < found2) && decide (found2 + 1 = copy2.length) then
              some (EndpointDesc.ipV6
                ⟨etype, protocol, encryption, lb, reuseAddress,
                 (copy2.drop 1).take (found2 - 1), defaultPort⟩)
            else none
          | none => none
      else
        match findCharFrom copy2 ':' 0 with
        | some found =>
          if found + 1 < copy2.length then
            some (EndpointDesc.ipV4
              ⟨etype, protocol, encryption, lb, reuseAddress,
               copy2.take found,
               toUint16 (stringUtilsUint32 (copy2.drop (found + 1)))⟩)
          else
            some (EndpointDesc.ipV4
              ⟨etype, protocol, encryption, lb, reuseAddress, copy2, defaultPort⟩)
        | none =>
          some (EndpointDesc.ipV4
            ⟨etype, protocol, encryption, lb, reuseAddress, copy2, defaultPort⟩)

/-- Backlog defaulting of `Endpoint::factory` (Endpoint.cpp lines 190-193). -/
def factoryBacklog (etype : EndpointType) (listenBacklog : Nat) : Nat :=
  if listenBacklog = 0 ∧ etype = EndpointType.server then 10 else listenBacklog

/-- `Endpoint::factory` (Endpoint.cpp lines 178-299).  The debug-only
`TRI_ASSERT(false)` for a positive backlog on a client endpoint is a no-op
in the modelled release build. -/
def factory (etype : EndpointType) (specification : List Char)
    (listenBacklog : Nat) (reuseAddress : Bool) : Option EndpointDesc :=
  if specification.length < 7 then none
  else if ("http+".toList).isPrefixOf (unifiedFormList specification) then
    factoryTail etype TransportType.http (factoryBacklog etype listenBacklog)
      reuseAddress ((unifiedFormList specification).drop 5)
  else if ("vpp+".toList).isPrefixOf (unifiedFormList specification) then
    factoryTail etype TransportType.vpp (factoryBacklog etype listenBacklog)
      reuseAddress ((unifiedFormList specification).drop 4)
  else none

/-! Section 3: lemmas and theorems about endpoint parsing (claims C9, C10). -/

lemma charToLower_v : charToLower 'v' = 'v' := by decide

lemma charToLower_p : charToLower 'p' = 'p' := by decide

lemma charToLower_plus : charToLower '+' = '+' := by decide

lemma strToLower_vpp (r : List Char) :
    strToLower ('v' :: 'p' :: 'p' :: '+' :: r) =
      'v' :: 'p' :: 'p' :: '+' :: strToLower r := by
  simp [strToLower, charToLower_v, charToLower_p, charToLower_plus]

lemma trimList_shape (a b c d : Char) (l : List Char)
    (ha : isTrimChar a = false) (hd : isTrimChar d = false) :
    ∃ t, trimList (a :: b :: c :: d :: l) = a :: b :: c :: d :: t := by
  unfold trimList
  rw [List.dropWhile_cons, if_neg (by simp [ha])]
  have h4 : a :: b :: c :: d :: l = [a, b, c, d] ++ l := rfl
  rw [h4, List.reverse_append, List.dropWhile_append]
  split
  · refine ⟨[], ?_⟩
    have : List.dropWhile isTrimChar [a, b, c, d].reverse = [a, b, c, d].reverse := by
      show List.dropWhile isTrimChar [d, c, b, a] = [d, c, b, a]
      rw [List.dropWhile_cons, if_neg (by simp [hd])]
    rw [this]
    simp
  · refine ⟨(List.dropWhile isTrimChar l.reverse).reverse, ?_⟩
    simp

lemma slashAdjusted_vpp (spec t : List Char) :
    (∃ t1, slashAdjusted spec ('v' :: 'p' :: 'p' :: '+' :: t) =
        'v' :: 'p' :: 'p' :: '+' :: t1) ∨
      slashAdjusted spec ('v' :: 'p' :: 'p' :: '+' :: t) = ['v', 'p', 'p'] := by
  unfold slashAdjusted
  split
  · cases t with
    | nil => right; rfl
    | cons c t2 =>
      left
      refine ⟨(c :: t2).take t2.length, ?_⟩
      have h4 : 'v' :: 'p' :: 'p' :: '+' :: c :: t2 =
          ['v', 'p', 'p', '+'] ++ c :: t2 := rfl
      rw [h4]
      have hlen : (['v', 'p', 'p', '+'] ++ c :: t2).length - 1 =
          ['v', 'p', 'p', '+'].length + t2.length := by
        simp
        omega
      rw [hlen, List.take_append]
      rfl
  · left; exact ⟨t, rfl⟩

lemma http_isPrefixOf_v_false (t : List Char) :
    ("http+".toList).isPrefixOf ('v' :: t) = false := rfl

lemma vpp_isPrefixOf_vpp (t : List Char) :
    ("vpp+".toList).isPrefixOf ('v' :: 'p' :: 'p' :: '+' :: t) = true := by
  simp [List.isPrefixOf]

lemma vpp_isPrefixOf_vsp_false (t : List Char) :
    ("vpp+".toList).isPrefixOf ('v' :: 's' :: 'p' :: '+' :: t) = false := rfl

lemma vsp_isPrefixOf_vsp (t : List Char) :
    ("vsp+".toList).isPrefixOf ('v' :: 's' :: 'p' :: '+' :: t) = true := by
  simp [List.isPrefixOf]

lemma protocolParse_vpp (t : List Char) :
    protocolParse ('v' :: 'p' :: 'p' :: '+' :: t) =
      (TransportType.vpp, "vsp+".toList, t) := by
  unfold protocolParse
  simp only [http_isPrefixOf_v_false, Bool.false_eq_true, if_false]
  simp only [vpp_isPrefixOf_vpp, if_true]
  rfl

lemma append3_shape (pfx a b c : List Char) :
    ∃ rest, pfx ++ a ++ b ++ c = pfx ++ rest :=
  ⟨a ++ (b ++ c), by simp [List.append_assoc]⟩

lemma unifiedFormTail_shape (protocol : TransportType) (pfx copy : List Char) :
    unifiedFormTail protocol pfx copy = [] ∨
      ∃ rest, unifiedFormTail protocol pfx copy = pfx ++ rest := by
  unfold unifiedFormTail
  repeat' first
  | exact Or.inl rfl
  | exact Or.inr ⟨_, rfl⟩
  | exact Or.inr (append3_shape _ _ _ _)
  | split

lemma http_isPrefixOf_nil_false :
    ("http+".toList).isPrefixOf ([] : List Char) = false := rfl

lemma vpp_isPrefixOf_nil_false :
    ("vpp+".toList).isPrefixOf ([] : List Char) = false := rfl

lemma unifiedFormList_vpp (r : List Char) :
    unifiedFormList ('v' :: 'p' :: 'p' :: '+' :: r) = [] ∨
      ∃ rest, unifiedFormList ('v' :: 'p' :: 'p' :: '+' :: r) =
        'v' :: 's' :: 'p' :: '+' :: rest := by
  unfold unifiedFormList
  split
  · exact Or.inl rfl
  · rw [strToLower_vpp]
    obtain ⟨t, ht⟩ :=
      trimList_shape 'v' 'p' 'p' '+' (strToLower r) (by decide) (by decide)
    rw [ht]
    rcases slashAdjusted_vpp ('v' :: 'p' :: 'p' :: '+' :: r) t with ⟨t1, ht1⟩ | hdeg
    · rw [ht1, protocolParse_vpp]
      rcases unifiedFormTail_shape TransportType.vpp ("vsp+".toList) t1 with h0 | ⟨rest, hrest⟩
      · exact Or.inl h0
      · exact Or.inr ⟨rest, hrest⟩
    · rw [hdeg]
      exact Or.inl (by decide)

/-- C10: an endpoint specification shorter than 7 characters is rejected:
`Endpoint::unifiedForm` returns the empty string and `Endpoint::factory`
returns nullptr, so no endpoint object is constructed from it. -/
theorem short_specification_rejected (spec : List Char) (etype : EndpointType)
    (lb : Nat) (ra : Bool) (h : spec.length < 7) :
    unifiedFormList spec = [] ∧ factory etype spec lb ra = none := by
  constructor
  · unfold unifiedFormList; rw [if_pos h]
  · unfold factory; rw [if_pos h]

/-- Witness for C10 at the 6-character specification "tcp://". -/
theorem short_specification_rejected_witness :
    ("tcp://".toList).length < 7 ∧
      (unifiedFormList ("tcp://".toList) = [] ∧
        factory EndpointType.client ("tcp://".toList) 0 false = none) :=
  ⟨by decide, short_specification_rejected _ EndpointType.client 0 false (by decide)⟩

/-- C9: a specification beginning with "vpp+" never yields an endpoint:
`Endpoint::factory` returns nullptr on it, `Endpoint::unifiedForm` rewrites
the protocol marker of such a specification to "vsp+" (or rejects it as
empty), and `factory` accepts only "http+"- or "vpp+"-prefixed unified
forms, rejecting everything else. -/
theorem vpp_specification_rejected (spec : List Char) (etype : EndpointType)
    (lb : Nat) (ra : Bool) (h : ("vpp+".toList).isPrefixOf spec = true) :
    factory etype spec lb ra = none ∧
      (unifiedFormList spec = [] ∨
        ("vsp+".toList).isPrefixOf (unifiedFormList spec) = true) ∧
      (∀ s2 : List Char, factory etype s2 lb ra ≠ none →
        ("http+".toList).isPrefixOf (unifiedFormList s2) = true ∨
          ("vpp+".toList).isPrefixOf (unifiedFormList s2) = true) := by
  rw [List.isPrefixOf_iff_prefix] at h
  obtain ⟨r, hr⟩ := h
  have hspec : spec = 'v' :: 'p' :: 'p' :: '+' :: r := hr.symm
  subst hspec
  have hshape := unifiedFormList_vpp r
  refine ⟨?_, ?_, ?_⟩
  · unfold factory
    split
    · rfl
    · rcases hshape with h0 | ⟨rest, hrest⟩
      · rw [h0]
        simp only [http_isPrefixOf_nil_false, vpp_isPrefixOf_nil_false,
          Bool.false_eq_true, if_false]
      · rw [hrest]
        simp only [http_isPrefixOf_v_false, vpp_isPrefixOf_vsp_false,
          Bool.false_eq_true, if_false]
  · rcases hshape with h0 | ⟨rest, hrest⟩
    · exact Or.inl h0
    · refine Or.inr ?_
      rw [hrest]
      exact vsp_isPrefixOf_vsp rest
  · intro s2 hne
    unfold factory at hne
    by_cases hlen : s2.length < 7
    · rw [if_pos hlen] at hne
      exact absurd rfl hne
    · rw [if_neg hlen] at hne
      by_cases h1 : ("http+".toList).isPrefixOf (unifiedFormList s2) = true
      · exact Or.inl h1
      · by_cases h2 : ("vpp+".toList).isPrefixOf (unifiedFormList s2) = true
        · exact Or.inr h2
        · rw [if_neg h1, if_neg h2] at hne
          exact absurd rfl hne

/-- Witness for C9 at the specification "vpp+tcp://host:123". -/
theorem vpp_specification_rejected_witness :
    ("vpp+".toList).isPrefixOf ("vpp+tcp://host:123".toList) = true ∧
      factory EndpointType.client ("vpp+tcp://host:123".toList) 0 false = none :=
  ⟨by decide,
    (vpp_specification_rejected ("vpp+tcp://host:123".toList)
      EndpointType.client 0 false (by decide)).1⟩

/-! Section 4: AQL Graph construction (src/arangod/Aql/Graphs.cpp, claim C8).
VelocyPack slices are embedded as an inductive value tree; a `vnone` value
stands for the None slice `Slice::get` yields on a missing key.  Velocypack
iterator/copyString failures and ArangoDB exceptions are both modelled in one
error type, since the constructor's `catch (...)` blocks catch either. -/

inductive VPack
  | vnone
  | vbool (b : Bool)
  | vnum (n : Int)
  | vstring (s : String)
  | varray (elems : List VPack)
  | vobject (fields : List (String × VPack))

/-- Errors escaping Graph construction: raw velocypack exceptions
(non-array iterated, non-string copied) or ArangoDB exceptions with an
error code and message. -/
inductive GraphError
  | vpackError
  | arangoError (code : Nat) (msg : String)
  deriving DecidableEq, Repr

/-- `TRI_ERROR_GRAPH_INVALID_GRAPH` (error 1924, "invalid graph"). -/
def TRI_ERROR_GRAPH_INVALID_GRAPH : Nat := 1924

/-- `Slice::hasKey`. -/
def VPack.hasKey (v : VPack) (k : String) : Bool :=
  match v with
  | VPack.vobject fields => fields.any (fun f => f.1 == k)
  | _ => false

/-- `Slice::get` on an object: value of the key, or the None slice when the
key is absent.  On a non-object it raises a velocypack exception. -/
def VPack.get (v : VPack) (k : String) : Except GraphError VPack :=
  match v with
  | VPack.vobject fields =>
    match fields.find? (fun f => f.1 == k) with
    | some f => Except.ok f.2
    | none => Except.ok VPack.vnone
  | _ => Except.error GraphError.vpackError

/-- `Slice::copyString`: the string value; a velocypack exception on a
non-string slice. -/
def VPack.copyString (v : VPack) : Except GraphError String :=
  match v with
  | VPack.vstring s => Except.ok s
  | _ => Except.error GraphError.vpackError

/-- `VelocyPackHelper::getStringValue(slice, name, default)` (helper outside
src/, standard contract evident from the call sites): the attribute's string
value, or the supplied default when the attribute is absent or not a string;
a velocypack exception only when `slice` is not an object. -/
def getStringValue (v : VPack) (k : String) (dflt : String) : Except GraphError String :=
  match v with
  | VPack.vobject fields =>
    match fields.find? (fun f => f.1 == k) with
    | some f =>
      match f.2 with
      | VPack.vstring s => Except.ok s
      | _ => Except.ok dflt
    | none => Except.ok dflt
  | _ => Except.error GraphError.vpackError

/-- The in-memory Graph object: its vertex and edge collection name sets
(`std::unordered_set`, embedded as duplicate-free insertion lists). -/
structure GraphState where
  vertexColls : List String
  edgeColls : List String
  deriving DecidableEq, Repr

/-- `std::unordered_set::insert`. -/
def setInsert (l : List String) (s : String) : List String :=
  if s ∈ l then l else l ++ [s]

/-- `Graph::addVertexCollection` (Graphs.cpp lines 112-114). -/
def addVertexCollection (g : GraphState) (s : String) : GraphState :=
  { g with vertexColls := setInsert g.vertexColls s }

/-- `Graph::addEdgeCollection` (Graphs.cpp lines 108-110). -/
def addEdgeCollection (g : GraphState) (s : String) : GraphState :=
  { g with edgeColls := setInsert g.edgeColls s }

/-- Body of `Graph::insertVertexCollections` (Graphs.cpp lines 92-98):
iterate the array, adding each (string) member as a vertex collection.
`VPackArrayIterator` on a non-array and `copyString` on a non-string raise;
the release-build `TRI_ASSERT`s are no-ops. -/
def insertVertexCollections (g : GraphState) (arr : VPack) : Except GraphError GraphState :=
  match arr with
  | VPack.varray elems =>
    elems.foldlM (fun acc c => do
      let s ← c.copyString
      pure (addVertexCollection acc s)) g
  | _ => Except.error GraphError.vpackError

/-- Processing of one edge definition in the `Graph::Graph` constructor loop
(Graphs.cpp lines 140-162): three try/catch blocks, each rethrowing any
failure as `TRI_ERROR_GRAPH_INVALID_GRAPH`. -/
def processEdgeDefinition (g : GraphState) (defn : VPack) : Except GraphError GraphState := do
  let g1 ←
    match getStringValue defn "collection" "" with
    | Except.ok eCol => Except.ok (addEdgeCollection g eCol)
    | Except.error _ =>
      Except.error (GraphError.arangoError TRI_ERROR_GRAPH_INVALID_GRAPH
        "didn't find 'collection' in the graph definition")
  let g2 ←
    match (do
        let tmp ← defn.get "from"
        insertVertexCollections g1 tmp : Except GraphError GraphState) with
    | Except.ok g2 => Except.ok g2
    | Except.error _ =>
      Except.error (GraphError.arangoError TRI_ERROR_GRAPH_INVALID_GRAPH
        "didn't find from-collection in the graph definition")
  match (do
      let tmp ← defn.get "to"
      insertVertexCollections g2 tmp : Except GraphError GraphState) with
  | Except.ok g3 => Except.ok g3
  | Except.error _ =>
    Except.error (GraphError.arangoError TRI_ERROR_GRAPH_INVALID_GRAPH
      "didn't find to-collection in the graph definition")

/-- `Graph::Graph(VPackSlice const&)` (Graphs.cpp lines 136-168).
The edge-definition iterator construction (line 140) and the orphan handling
(lines 164-167) are outside every try block, so their velocypack exceptions
propagate raw. -/
def graphConstructor (slice : VPack) : Except GraphError GraphState := do
  let g0 : GraphState := ⟨[], []⟩
  let g1 ←
    if slice.hasKey "edgeDefinitions" then do
      let edgeDefs ← slice.get "edgeDefinitions"
      match edgeDefs with
      | VPack.varray defs => defs.foldlM processEdgeDefinition g0
      | _ => Except.error GraphError.vpackError
    else pure g0
  if slice.hasKey "orphanCollections" then do
    let orphans ← slice.get "orphanCollections"
    insertVertexCollections g1 orphans
  else pure g1

/-- A persisted graph record whose single edge definition has `from` and
`to` lists but no `collection` attribute. -/
def graphRecordMissingCollection : VPack :=
  VPack.vobject [("edgeDefinitions", VPack.varray
    [VPack.vobject [("from", VPack.varray [VPack.vstring "v1"]),
                    ("to", VPack.varray [VPack.vstring "v2"])]])]

/-- C8 (code_bug evidence): constructing a Graph from a record whose edge
definition lacks the `collection` attribute is NOT rejected with
`TRI_ERROR_GRAPH_INVALID_GRAPH`: `getStringValue(def, "collection", "")`
returns the default "" instead of raising, so the construction succeeds and
silently records the empty string as an edge collection name, although the
adjacent catch block (Graphs.cpp line 147) shows rejection was intended. -/
theorem missing_collection_not_rejected :
    graphConstructor graphRecordMissingCollection =
      Except.ok ⟨["v1", "v2"], [""]⟩ ∧
      ∀ code msg, graphConstructor graphRecordMissingCollection ≠
        Except.error (GraphError.arangoError code msg) := by
  constructor
  · rfl
  · intro code msg h
    rw [show graphConstructor graphRecordMissingCollection =
      Except.ok ⟨["v1", "v2"], [""]⟩ from rfl] at h
    exact Except.noConfusion h

/-! Section 5: the agency supervision job framework around CleanOutServer.
src/arangod/Agency/CleanOutServer.h only declares `status`, `create`,
`start`, `checkFeasibility` and `scheduleMoveShards`; their implementations
are not part of src/, so every operation below is modelled from the spec
(sections 3-8 of spec.md) and documented as such. -/

abbrev ServerId := String

/-- Modelled from the spec: one shard of a collection together with the list
of (distinct) servers currently hosting its replicas. -/
structure Shard where
  id : String
  servers : List ServerId
  deriving DecidableEq, Repr

/-- Modelled from the spec: a collection with its configured replication
factor and its shards. -/
structure Collection where
  name : String
  replicationFactor : Nat
  shards : List Shard
  deriving DecidableEq, Repr

/-- Modelled from the spec: the cluster-wide part of a Snapshot that the
CleanOutServer algorithms read — the list of all healthy servers (servers
already marked for cleanout or otherwise unavailable are excluded from it)
and the collections with their shard distributions. -/
structure ClusterState where
  healthy : List ServerId
  collections : List Collection
  deriving DecidableEq, Repr

/-- Modelled from the spec: whether some healthy server other than `target`
and not already hosting `sh` is available to receive the shard. -/
def hasFreeSlot (healthy : List ServerId) (target : ServerId) (sh : Shard) : Bool :=
  healthy.any (fun s => decide (s ≠ target) && decide (s ∉ sh.servers))

/-- Modelled from the spec: `CleanOutServer::checkFeasibility()` — for every
collection whose shard distribution includes the target server and every
such shard placed on the target, there must be a free slot (a healthy
server outside the target and outside the servers already hosting the
shard) to receive it while maintaining the replication factor. -/
def checkFeasibility (cs : ClusterState) (target : ServerId) : Bool :=
  cs.collections.all (fun col => col.shards.all (fun sh =>
    if target ∈ sh.servers then hasFreeSlot cs.healthy target sh else true))

/-- Well-placedness of a snapshot: every shard's replica list is
duplicate-free, of size equal to its collection's replication factor, and
lies inside the healthy servers; the healthy list itself is duplicate-free. -/
def WellPlaced (cs : ClusterState) : Prop :=
  cs.healthy.Nodup ∧
    ∀ col ∈ cs.collections, ∀ sh ∈ col.shards,
      sh.servers.Nodup ∧ sh.servers.length = col.replicationFactor ∧
        ∀ s ∈ sh.servers, s ∈ cs.healthy

/-- Every collection of the snapshot has replication factor `R`. -/
def ReplFactorAll (cs : ClusterState) (R : Nat) : Prop :=
  ∀ col ∈ cs.collections, col.replicationFactor = R

lemma checkFeasibility_eq_false_iff (cs : ClusterState) (target : ServerId) :
    checkFeasibility cs target = false ↔
      ∃ col ∈ cs.collections, ∃ sh ∈ col.shards,
        target ∈ sh.servers ∧ ∀ s ∈ cs.healthy, s = target ∨ s ∈ sh.servers := by
  rw [← Bool.not_eq_true]
  unfold checkFeasibility hasFreeSlot
  simp only [List.all_eq_true, List.any_eq_true, not_forall]
  constructor
  · rintro ⟨col, hcol, sh, hsh, hbad⟩
    refine ⟨col, hcol, sh, hsh, ?_, ?_⟩
    · by_contra htgt
      rw [if_neg htgt] at hbad
      exact hbad rfl
    · intro s hs
      by_contra hcon
      push_neg at hcon
      obtain ⟨hne, hmem⟩ := hcon
      by_cases htgt : target ∈ sh.servers
      · rw [if_pos htgt] at hbad
        apply hbad
        rw [List.any_eq_true]
        exact ⟨s, hs, by simp [hne, hmem]⟩
      · rw [if_neg htgt] at hbad
        exact hbad rfl
  · rintro ⟨col, hcol, sh, hsh, htgt, hall⟩
    refine ⟨col, hcol, sh, hsh, ?_⟩
    rw [if_pos htgt]
    intro hany
    rw [List.any_eq_true] at hany
    obtain ⟨s, hs, hprop⟩ := hany
    rw [Bool.and_eq_true, decide_eq_true_eq, decide_eq_true_eq] at hprop
    rcases hall s hs with h | h
    · exact hprop.1 h
    · exact hprop.2 h

lemma exists_free_server (healthy servers : List ServerId)
    (hn : healthy.Nodup) (hs : servers.length < healthy.length) :
    ∃ s ∈ healthy, s ∉ servers := by
  by_contra hcon
  push_neg at hcon
  have hsub : healthy ⊆ servers := fun s hmem => hcon s hmem
  have := (hn.subperm hsub).length_le
  omega

/-- C1: feasibility of cleaning out a server.  (1) `checkFeasibility` is
false exactly when some shard hosted on the target has no healthy server
outside the target and outside the shard's present hosts available to
receive it; (2) with every collection at replication factor R, a well-placed
snapshot, exactly R healthy servers, the target one of them and at least one
shard present, it returns false; (3) with R+1 healthy servers it returns
true. -/
theorem checkFeasibility_characterisation (cs : ClusterState) (target : ServerId) (R : Nat) :
    (checkFeasibility cs target = false ↔
      ∃ col ∈ cs.collections, ∃ sh ∈ col.shards,
        target ∈ sh.servers ∧ ∀ s ∈ cs.healthy, s = target ∨ s ∈ sh.servers) ∧
    (WellPlaced cs → ReplFactorAll cs R → cs.healthy.length = R →
      target ∈ cs.healthy → (∃ col ∈ cs.collections, ∃ sh, sh ∈ col.shards) →
      checkFeasibility cs target = false) ∧
    (WellPlaced cs → ReplFactorAll cs R → cs.healthy.length = R + 1 →
      checkFeasibility cs target = true) := by
  refine ⟨checkFeasibility_eq_false_iff cs target, ?_, ?_⟩
  · rintro ⟨hhn, hwp⟩ hrf hcard htgt ⟨col, hcol, sh, hsh⟩
    obtain ⟨hnodup, hlen, hsub⟩ := hwp col hcol sh hsh
    have hRlen : sh.servers.length = R := by rw [hlen, hrf col hcol]
    -- with R distinct replicas inside R distinct healthy servers,
    -- every healthy server hosts the shard
    have hall : ∀ s ∈ cs.healthy, s ∈ sh.servers := by
      intro s hs
      by_contra hmem
      have hcons : (s :: sh.servers).Nodup := List.nodup_cons.mpr ⟨hmem, hnodup⟩
      have hsub2 : (s :: sh.servers) ⊆ cs.healthy := by
        intro x hx
        rcases List.mem_cons.mp hx with h | h
        · exact h ▸ hs
        · exact hsub x h
      have := (hcons.subperm hsub2).length_le
      simp only [List.length_cons] at this
      omega
    rw [checkFeasibility_eq_false_iff]
    exact ⟨col, hcol, sh, hsh, hall target htgt, fun s hs => Or.inr (hall s hs)⟩
  · rintro ⟨hhn, hwp⟩ hrf hcard
    by_contra hfalse
    rw [Bool.not_eq_true, checkFeasibility_eq_false_iff] at hfalse
    obtain ⟨col, hcol, sh, hsh, htgt, hall⟩ := hfalse
    obtain ⟨hnodup, hlen, hsub⟩ := hwp col hcol sh hsh
    have hRlen : sh.servers.length = R := by rw [hlen, hrf col hcol]
    obtain ⟨s, hs, hmem⟩ := exists_free_server cs.healthy sh.servers hhn (by omega)
    rcases hall s hs with h | h
    · exact hmem (h ▸ htgt)
    · exact hmem h

/-- An example snapshot: two servers "A" and "S", one collection "c1" with
replication factor 2 and two shards, both hosted on both servers. -/
def csTwo : ClusterState :=
  ⟨["A", "S"],
   [⟨"c1", 2, [⟨"s1", ["A", "S"]⟩, ⟨"s2", ["S", "A"]⟩]⟩]⟩

/-- The same collections with a third healthy server "B". -/
def csThree : ClusterState :=
  ⟨["A", "S", "B"],
   [⟨"c1", 2, [⟨"s1", ["A", "S"]⟩, ⟨"s2", ["S", "A"]⟩]⟩]⟩

/-- Witness for C1: with replication factor 2 and exactly 2 healthy servers
cleaning out "S" is infeasible; with a third healthy server it is feasible. -/
theorem checkFeasibility_characterisation_witness :
    checkFeasibility csTwo "S" = false ∧ checkFeasibility csThree "S" = true :=
  ⟨(checkFeasibility_characterisation csTwo "S" 2).2.1
      (by constructor
          · decide
          · intro col hcol sh hsh
            fin_cases hcol <;> fin_cases hsh <;> refine ⟨by decide, by decide, by decide⟩)
      (by intro col hcol; fin_cases hcol; decide) (by decide) (by decide)
      ⟨⟨"c1", 2, [⟨"s1", ["A", "S"]⟩, ⟨"s2", ["S", "A"]⟩]⟩, by decide,
        ⟨"s1", ["A", "S"]⟩, by decide⟩,
    (checkFeasibility_characterisation csThree "S" 2).2.2
      (by constructor
          · decide
          · intro col hcol sh hsh
            fin_cases hcol <;> fin_cases hsh <;> refine ⟨by decide, by decide, by decide⟩)
      (by intro col hcol; fin_cases hcol; decide) (by decide)⟩

/-- Modelled from the spec: the four job-record collections under the
supervision root (Target/ToDo, Target/Pending, Target/Finished,
Target/Failed); a record's location encodes its state. -/
inductive JobLoc
  | toDo
  | pending
  | finished
  | failed
  deriving DecidableEq, Repr

/-- Modelled from the spec: a ShardMoveSubJob record — one per shard placed
on the server being cleaned out, keyed by (collection, shard, source
server), with its chosen destination and its own job state. -/
structure SubJob where
  collection : String
  shard : String
  fromServer : ServerId
  toServer : ServerId
  state : JobLoc
  deriving DecidableEq, Repr

/-- Number of shards of `col` already placed on server `s` (the placement
heuristic's load measure). -/
def numShardsOn (col : Collection) (s : ServerId) : Nat :=
  (col.shards.filter (fun sh => s ∈ sh.servers)).length

/-- Modelled from the spec: pick from the candidates the server with the
fewest shards of the collection, breaking ties by server id order. -/
def pickMin (col : Collection) : ServerId → List ServerId → ServerId
  | c, [] => c
  | c, s :: rest =>
    if numShardsOn col s < numShardsOn col c ∨
        (numShardsOn col s = numShardsOn col c ∧ s < c) then
      pickMin col s rest
    else pickMin col c rest

/-- Modelled from the spec: the destination server chosen for moving `sh`
off `target` — a healthy server not the target and not already hosting the
shard, minimising the placement heuristic; none when no candidate exists. -/
def chooseDestination (healthy : List ServerId) (target : ServerId)
    (col : Collection) (sh : Shard) : Option ServerId :=
  match healthy.filter (fun s => decide (s ≠ target) && decide (s ∉ sh.servers)) with
  | [] => none
  | c :: rest => some (pickMin col c rest)

/-- All (collection, shard) pairs currently placed on the target server, in
the snapshot's deterministic enumeration order. -/
def movingShards (cs : ClusterState) (target : ServerId) : List (Collection × Shard) :=
  cs.collections.flatMap (fun col =>
    (col.shards.filter (fun sh => target ∈ sh.servers)).map (fun sh => (col, sh)))

/-- Modelled from the spec: the store precondition guarding each sub-job
insertion — a ShardMoveSubJob for this (collection, shard, source server)
already exists. -/
def hasSubJobFor (store : List SubJob) (colName shId : String) (target : ServerId) : Bool :=
  store.any (fun j => j.collection == colName && j.shard == shId && j.fromServer == target)

/-- Number of sub-job records for one (collection, shard, source) key. -/
def countSubJobs (store : List SubJob) (colName shId : String) (target : ServerId) : Nat :=
  store.countP (fun j => j.collection == colName && j.shard == shId && j.fromServer == target)

/-- Modelled from the spec: one combined transaction of
`scheduleMoveShards` — insert a ToDo ShardMoveSubJob for the shard, guarded
by the precondition that none exists yet for this (shard, server) pair; the
transaction is skipped when no destination is available. -/
def scheduleStep (healthy : List ServerId) (target : ServerId)
    (store : List SubJob) (p : Collection × Shard) : List SubJob :=
  if hasSubJobFor store p.1.name p.2.id target then store
  else
    match chooseDestination healthy target p.1 p.2 with
    | some d => store ++ [⟨p.1.name, p.2.id, target, d, JobLoc.toDo⟩]
    | none => store

/-- Modelled from the spec: `CleanOutServer::scheduleMoveShards()` —
enumerate every shard currently placed on the target server and submit one
guarded sub-job insertion per shard. -/
def scheduleMoveShards (cs : ClusterState) (target : ServerId)
    (store : List SubJob) : List SubJob :=
  (movingShards cs target).foldl (scheduleStep cs.healthy target) store

lemma hasSubJobFor_eq_false_iff (store : List SubJob) (c i : String) (t : ServerId) :
    hasSubJobFor store c i t = false ↔ countSubJobs store c i t = 0 := by
  unfold hasSubJobFor countSubJobs
  rw [List.any_eq_false, List.countP_eq_zero]

lemma chooseDestination_isSome (healthy : List ServerId) (target : ServerId)
    (col : Collection) (sh : Shard) (h : hasFreeSlot healthy target sh = true) :
    (chooseDestination healthy target col sh).isSome = true := by
  unfold chooseDestination
  cases hf : healthy.filter (fun s => decide (s ≠ target) && decide (s ∉ sh.servers)) with
  | nil =>
    exfalso
    unfold hasFreeSlot at h
    rw [List.any_eq_true] at h
    obtain ⟨s, hs, hp⟩ := h
    have hmem : s ∈ healthy.filter (fun s => decide (s ≠ target) && decide (s ∉ sh.servers)) :=
      List.mem_filter.mpr ⟨hs, hp⟩
    rw [hf] at hmem
    exact absurd hmem (List.not_mem_nil s)
  | cons c rest => rfl

lemma scheduleStep_mono (healthy : List ServerId) (target : ServerId)
    (store : List SubJob) (p : Collection × Shard) (c i : String) (t : ServerId)
    (h : hasSubJobFor store c i t = true) :
    hasSubJobFor (scheduleStep healthy target store p) c i t = true := by
  unfold scheduleStep
  split
  · exact h
  · split
    · unfold hasSubJobFor at h ⊢
      rw [List.any_eq_true] at h
      rw [List.any_eq_true]
      obtain ⟨j, hj, hpj⟩ := h
      exact ⟨j, List.mem_append_left _ hj, hpj⟩
    · exact h

lemma scheduleStep_inserts (healthy : List ServerId) (target : ServerId)
    (store : List SubJob) (p : Collection × Shard)
    (h : (chooseDestination healthy target p.1 p.2).isSome = true) :
    hasSubJobFor (scheduleStep healthy target store p) p.1.name p.2.id target = true := by
  unfold scheduleStep
  split
  · assumption
  · obtain ⟨d, hd⟩ := Option.isSome_iff_exists.mp h
    rw [hd]
    unfold hasSubJobFor
    rw [List.any_eq_true]
    refine ⟨⟨p.1.name, p.2.id, target, d, JobLoc.toDo⟩, List.mem_append_right _ ?_, by simp⟩
    exact List.mem_singleton.mpr rfl

lemma foldl_schedule_mono (healthy : List ServerId) (target : ServerId)
    (l : List (Collection × Shard)) (store : List SubJob) (c i : String) (t : ServerId)
    (h : hasSubJobFor store c i t = true) :
    hasSubJobFor (l.foldl (scheduleStep healthy target) store) c i t = true := by
  induction l generalizing store with
  | nil => exact h
  | cons q rest ih =>
    exact ih (scheduleStep healthy target store q) (scheduleStep_mono _ _ _ _ _ _ _ h)

lemma foldl_schedule_present (healthy : List ServerId) (target : ServerId)
    (l : List (Collection × Shard)) (store : List SubJob) :
    ∀ p ∈ l, (chooseDestination healthy target p.1 p.2).isSome = true →
      hasSubJobFor (l.foldl (scheduleStep healthy target) store) p.1.name p.2.id target = true := by
  induction l generalizing store with
  | nil => intro p hp; exact absurd hp (List.not_mem_nil p)
  | cons q rest ih =>
    intro p hp hsome
    rcases List.mem_cons.mp hp with rfl | hmem
    · exact foldl_schedule_mono healthy target rest _ _ _ _
        (scheduleStep_inserts healthy target store p hsome)
    · exact ih (scheduleStep healthy target store q) p hmem hsome

lemma foldl_schedule_stable (healthy : List ServerId) (target : ServerId)
    (l : List (Collection × Shard)) (store : List SubJob)
    (h : ∀ p ∈ l, scheduleStep healthy target store p = store) :
    l.foldl (scheduleStep healthy target) store = store := by
  induction l with
  | nil => rfl
  | cons q rest ih =>
    rw [List.foldl_cons, h q (List.mem_cons_self q rest)]
    exact ih (fun p hp => h p (List.mem_cons_of_mem q hp))

lemma countSubJobs_step_other (healthy : List ServerId) (target : ServerId)
    (store : List SubJob) (p : Collection × Shard) (c i : String)
    (hne : ¬(c = p.1.name ∧ i = p.2.id)) :
    countSubJobs (scheduleStep healthy target store p) c i target =
      countSubJobs store c i target := by
  unfold scheduleStep
  split
  · rfl
  · cases hc : chooseDestination healthy target p.1 p.2 with
    | none => rfl
    | some d =>
      unfold countSubJobs
      rw [List.countP_append]
      have hz : List.countP
          (fun (j : SubJob) => j.collection == c && j.shard == i && j.fromServer == target)
          [⟨p.1.name, p.2.id, target, d, JobLoc.toDo⟩] = 0 := by
        rw [List.countP_eq_zero]
        intro j hj
        rw [List.mem_singleton] at hj
        subst hj
        intro hand
        rw [Bool.and_eq_true, Bool.and_eq_true] at hand
        obtain ⟨⟨h1, h2⟩, h3⟩ := hand
        rw [beq_iff_eq] at h1 h2
        exact hne ⟨h1.symm, h2.symm⟩
      omega

lemma countSubJobs_step_self (healthy : List ServerId) (target : ServerId)
    (store : List SubJob) (p : Collection × Shard)
    (hsome : (chooseDestination healthy target p.1 p.2).isSome = true)
    (hle : countSubJobs store p.1.name p.2.id target ≤ 1) :
    countSubJobs (scheduleStep healthy target store p) p.1.name p.2.id target = 1 := by
  unfold scheduleStep
  by_cases hpres : hasSubJobFor store p.1.name p.2.id target = true
  · rw [if_pos hpres]
    rcases Nat.lt_or_ge (countSubJobs store p.1.name p.2.id target) 1 with hc | hc
    · exfalso
      have h0 : countSubJobs store p.1.name p.2.id target = 0 := by omega
      rw [← hasSubJobFor_eq_false_iff] at h0
      rw [hpres] at h0
      exact Bool.noConfusion h0
    · omega
  · rw [if_neg hpres]
    obtain ⟨d, hd⟩ := Option.isSome_iff_exists.mp hsome
    rw [hd]
    have h0 : countSubJobs store p.1.name p.2.id target = 0 :=
      (hasSubJobFor_eq_false_iff _ _ _ _).mp ((Bool.not_eq_true _).mp hpres)
    unfold countSubJobs at h0 ⊢
    rw [List.countP_append, h0]
    have : List.countP
        (fun (j : SubJob) => j.collection == p.1.name && j.shard == p.2.id && j.fromServer == target)
        [⟨p.1.name, p.2.id, target, d, JobLoc.toDo⟩] = 1 := by
      rw [List.countP_cons]
      simp
    omega

lemma countSubJobs_foldl_other (healthy : List ServerId) (target : ServerId)
    (l : List (Collection × Shard)) (store : List SubJob) (c i : String)
    (hne : ∀ p ∈ l, ¬(c = p.1.name ∧ i = p.2.id)) :
    countSubJobs (l.foldl (scheduleStep healthy target) store) c i target =
      countSubJobs store c i target := by
  induction l generalizing store with
  | nil => rfl
  | cons q rest ih =>
    rw [List.foldl_cons]
    rw [ih (scheduleStep healthy target store q)
      (fun p hp => hne p (List.mem_cons_of_mem q hp))]
    exact countSubJobs_step_other healthy target store q c i (hne q (List.mem_cons_self q rest))

lemma countSubJobs_foldl_one (healthy : List ServerId) (target : ServerId)
    (l : List (Collection × Shard)) (store : List SubJob)
    (hnd : (l.map (fun p => (p.1.name, p.2.id))).Nodup)
    (hsome : ∀ p ∈ l, (chooseDestination healthy target p.1 p.2).isSome = true)
    (hinit : ∀ p ∈ l, countSubJobs store p.1.name p.2.id target ≤ 1) :
    ∀ p ∈ l, countSubJobs (l.foldl (scheduleStep healthy target) store) p.1.name p.2.id target = 1 := by
  induction l generalizing store with
  | nil => intro p hp; exact absurd hp (List.not_mem_nil p)
  | cons q rest ih =>
    rw [List.map_cons, List.nodup_cons] at hnd
    intro p hp
    rw [List.foldl_cons]
    rcases List.mem_cons.mp hp with rfl | hmem
    · have hstep := countSubJobs_step_self healthy target store p
        (hsome p (List.mem_cons_self p rest)) (hinit p (List.mem_cons_self p rest))
      rw [countSubJobs_foldl_other healthy target rest _ p.1.name p.2.id ?keys]
      · exact hstep
      case keys =>
        intro p2 hp2 heq
        exact hnd.1 (by
          rw [heq.1, heq.2]
          exact List.mem_map.mpr ⟨p2, hp2, rfl⟩)
    · refine ih (scheduleStep healthy target store q) hnd.2
        (fun p2 h2 => hsome p2 (List.mem_cons_of_mem q h2)) ?_ p hmem
      intro p2 h2
      by_cases hkeq : p2.1.name = q.1.name ∧ p2.2.id = q.2.id
      · have hc := countSubJobs_step_self healthy target store q
          (hsome q (List.mem_cons_self q rest)) (hinit q (List.mem_cons_self q rest))
        rw [hkeq.1, hkeq.2, hc]
      · rw [countSubJobs_step_other healthy target store q p2.1.name p2.2.id
          (fun hand => hkeq ⟨hand.1, hand.2⟩)]
        exact hinit p2 (List.mem_cons_of_mem q h2)

lemma mem_movingShards (cs : ClusterState) (target : ServerId) (p : Collection × Shard)
    (hp : p ∈ movingShards cs target) :
    p.1 ∈ cs.collections ∧ p.2 ∈ p.1.shards ∧ target ∈ p.2.servers := by
  unfold movingShards at hp
  rw [List.mem_flatMap] at hp
  obtain ⟨col, hcol, hmem⟩ := hp
  rw [List.mem_map] at hmem
  obtain ⟨sh, hsh, heq⟩ := hmem
  rw [List.mem_filter] at hsh
  cases heq
  exact ⟨hcol, hsh.1, by exact of_decide_eq_true hsh.2⟩

lemma feasible_gives_slot (cs : ClusterState) (target : ServerId)
    (hfeas : checkFeasibility cs target = true) (p : Collection × Shard)
    (hp : p ∈ movingShards cs target) :
    hasFreeSlot cs.healthy target p.2 = true := by
  obtain ⟨hcol, hsh, htgt⟩ := mem_movingShards cs target p hp
  unfold checkFeasibility at hfeas
  rw [List.all_eq_true] at hfeas
  have h1 := hfeas p.1 hcol
  rw [List.all_eq_true] at h1
  have h2 := h1 p.2 hsh
  rwa [if_pos htgt] at h2

/-- C2: exactly-once scheduling of shard moves.  (1) After
`scheduleMoveShards` completes on a feasible snapshot (with duplicate-free
shard keys and a well-formed initial store), every shard placed on the
target server has exactly one ShardMoveSubJob record; (2) running
`scheduleMoveShards` again on the resulting store creates no sub-job at
all — every insertion is suppressed by its existence precondition. -/
theorem scheduleMoveShards_exactly_once (cs : ClusterState) (target : ServerId)
    (store : List SubJob)
    (hfeas : checkFeasibility cs target = true)
    (hnd : ((movingShards cs target).map (fun p => (p.1.name, p.2.id))).Nodup)
    (hinit : ∀ p ∈ movingShards cs target,
      countSubJobs store p.1.name p.2.id target ≤ 1) :
    (∀ p ∈ movingShards cs target,
      countSubJobs (scheduleMoveShards cs target store) p.1.name p.2.id target = 1) ∧
    scheduleMoveShards cs target (scheduleMoveShards cs target store) =
      scheduleMoveShards cs target store := by
  constructor
  · exact countSubJobs_foldl_one cs.healthy target (movingShards cs target) store hnd
      (fun p hp => chooseDestination_isSome cs.healthy target p.1 p.2
        (feasible_gives_slot cs target hfeas p hp))
      hinit
  · unfold scheduleMoveShards
    apply foldl_schedule_stable
    intro p hp
    unfold scheduleStep
    rw [if_pos ?pres]
    case pres =>
      exact foldl_schedule_present cs.healthy target (movingShards cs target) store p hp
        (chooseDestination_isSome cs.healthy target p.1 p.2
          (feasible_gives_slot cs target hfeas p hp))

/-- Witness for C2 on the feasible three-server snapshot, cleaning out "S"
starting from an empty sub-job store. -/
theorem scheduleMoveShards_exactly_once_witness :
    (∀ p ∈ movingShards csThree "S",
      countSubJobs (scheduleMoveShards csThree "S" []) p.1.name p.2.id "S" = 1) ∧
    scheduleMoveShards csThree "S" (scheduleMoveShards csThree "S" []) =
      scheduleMoveShards csThree "S" [] :=
  scheduleMoveShards_exactly_once csThree "S" [] (by decide) (by decide)
    (fun p _ => Nat.zero_le 1)

/-- Modelled from the spec: a persisted job record (jobId globally unique,
creator, target server for CleanOutServer, failure reason — empty unless
the job failed). -/
structure JobRecord where
  jobId : String
  creator : String
  server : ServerId
  reason : String
  deriving DecidableEq, Repr

/-- Modelled from the spec: the supervision part of the agency store — the
four job collections under Target plus the spawned ShardMoveSubJob records.
Each operation below mutates it in one atomic precondition-guarded
transaction (one function application). -/
structure AgencyStore where
  toDo : List JobRecord
  pending : List JobRecord
  finished : List JobRecord
  failed : List JobRecord
  subJobs : List SubJob
  deriving DecidableEq, Repr

/-- Record stored under a collection path for a given jobId. -/
def findJob (l : List JobRecord) (jid : String) : Option JobRecord :=
  l.find? (fun r => r.jobId == jid)

/-- Deletion of the record at a collection path. -/
def removeJob (l : List JobRecord) (jid : String) : List JobRecord :=
  l.filter (fun r => r.jobId != jid)

/-- Modelled from the spec: `CleanOutServer::create()` — guarded by the
precondition that the record still exists at ToDo with its original
content; re-runs the feasibility check; on success atomically moves the
record ToDo→Pending and returns true; on infeasibility it returns false
and atomically moves the record ToDo→Failed with a capacity reason; a
rejected precondition leaves the store unchanged. -/
def create (cs : ClusterState) (rec : JobRecord) (st : AgencyStore) : Bool × AgencyStore :=
  if rec ∈ st.toDo then
    if checkFeasibility cs rec.server then
      (true, { st with toDo := removeJob st.toDo rec.jobId, pending := rec :: st.pending })
    else
      (false,
        { st with
          toDo := removeJob st.toDo rec.jobId
          failed :=
            { rec with reason := "capacity: replication factor cannot be maintained" } :: st.failed })
  else (false, st)

/-- Modelled from the spec: `CleanOutServer::start()` — idempotent
scheduling: only acts while the record is Pending, and then (re)submits the
guarded sub-job insertions of `scheduleMoveShards`. -/
def start (cs : ClusterState) (rec : JobRecord) (st : AgencyStore) : Bool × AgencyStore :=
  match findJob st.pending rec.jobId with
  | some r => (true, { st with subJobs := scheduleMoveShards cs r.server st.subJobs })
  | none => (false, st)

/-- Sub-jobs spawned for cleaning out `target`. -/
def jobSubJobs (st : AgencyStore) (target : ServerId) : List SubJob :=
  st.subJobs.filter (fun j => j.fromServer == target)

/-- Modelled from the spec: the state `status()` derives for a Pending
CleanOutServer job — Finished when every spawned sub-job is Finished and
the target hosts no shard any more; Failed when some sub-job failed;
otherwise still Pending. -/
def computeState (cs : ClusterState) (target : ServerId) (st : AgencyStore) : JobLoc :=
  if (jobSubJobs st target).all (fun j => j.state == JobLoc.finished) ∧
      movingShards cs target = [] then JobLoc.finished
  else if (jobSubJobs st target).any (fun j => j.state == JobLoc.failed) then JobLoc.failed
  else JobLoc.pending

/-- Location and content of a job record, searching the four collections in
lifecycle order. -/
def locateJob (st : AgencyStore) (jid : String) : Option (JobLoc × JobRecord) :=
  match findJob st.toDo jid with
  | some r => some (JobLoc.toDo, r)
  | none =>
    match findJob st.pending jid with
    | some r => some (JobLoc.pending, r)
    | none =>
      match findJob st.finished jid with
      | some r => some (JobLoc.finished, r)
      | none =>
        match findJob st.failed jid with
        | some r => some (JobLoc.failed, r)
        | none => none

/-- Modelled from the spec: `CleanOutServer::status()` — re-derives the
job's true state from the snapshot; when the stored location of a Pending
record disagrees with the derived truth, it performs the corrective move
transaction (Pending→Finished or Pending→Failed); otherwise it submits no
transaction. -/
def status (cs : ClusterState) (jid : String) (st : AgencyStore) :
    Option JobLoc × AgencyStore :=
  match locateJob st jid with
  | none => (none, st)
  | some (JobLoc.pending, r) =>
    match computeState cs r.server st with
    | JobLoc.finished =>
      (some JobLoc.finished,
        { st with pending := removeJob st.pending jid, finished := r :: st.finished })
    | JobLoc.failed =>
      (some JobLoc.failed,
        { st with pending := removeJob st.pending jid, failed := r :: st.failed })
    | _ => (some JobLoc.pending, st)
  | some (loc, _) => (some loc, st)

/-- How often a jobId is present across the four collections. -/
def locCount (st : AgencyStore) (jid : String) : Nat :=
  (findJob st.toDo jid).isSome.toNat + (findJob st.pending jid).isSome.toNat +
    (findJob st.finished jid).isSome.toNat + (findJob st.failed jid).isSome.toNat

/-- All jobIds present anywhere in the store. -/
def storeJobIds (st : AgencyStore) : List String :=
  st.toDo.map (fun r => r.jobId) ++ st.pending.map (fun r => r.jobId) ++
    st.finished.map (fun r => r.jobId) ++ st.failed.map (fun r => r.jobId)

/-- The single-location invariant: no jobId is present under more than one
of ToDo, Pending, Finished, Failed. -/
def singleLocation (st : AgencyStore) : Prop :=
  ∀ jid ∈ storeJobIds st, locCount st jid ≤ 1

lemma findJob_cons_ne (r : JobRecord) (l : List JobRecord) (jid : String)
    (h : r.jobId ≠ jid) : findJob (r :: l) jid = findJob l jid := by
  unfold findJob
  rw [List.find?_cons_of_neg]
  intro hb
  exact h (by rwa [beq_iff_eq] at hb)

lemma findJob_cons_self (r : JobRecord) (l : List JobRecord) (jid : String)
    (h : r.jobId = jid) : findJob (r :: l) jid = some r := by
  unfold findJob
  rw [List.find?_cons_of_pos]
  rwa [beq_iff_eq]

lemma findJob_removeJob_self (l : List JobRecord) (jid : String) :
    findJob (removeJob l jid) jid = none := by
  unfold findJob removeJob
  rw [List.find?_eq_none]
  intro r hr
  rw [List.mem_filter] at hr
  intro hb
  rw [beq_iff_eq] at hb
  have := hr.2
  rw [bne_iff_ne] at this
  exact this hb

lemma findJob_removeJob_ne (l : List JobRecord) (jid j2 : String) (h : j2 ≠ jid) :
    findJob (removeJob l jid) j2 = findJob l j2 := by
  induction l with
  | nil => rfl
  | cons r rest ih =>
    unfold removeJob
    rw [List.filter_cons]
    by_cases hr : r.jobId = jid
    · rw [if_neg (by simp [hr])]
      rw [findJob_cons_ne r rest j2 (fun he => h (he ▸ hr))]
      exact ih
    · rw [if_pos (by simp [hr])]
      by_cases hrj : r.jobId = j2
      · rw [findJob_cons_self r _ j2 hrj, findJob_cons_self r rest j2 hrj]
      · rw [findJob_cons_ne r _ j2 hrj, findJob_cons_ne r rest j2 hrj]
        exact ih

lemma findJob_some_jobId {l : List JobRecord} {jid : String} {r : JobRecord}
    (h : findJob l jid = some r) : r.jobId = jid := by
  unfold findJob at h
  have := List.find?_some h
  rwa [beq_iff_eq] at this

lemma findJob_isSome_of_mem {l : List JobRecord} {r : JobRecord} (h : r ∈ l) :
    (findJob l r.jobId).isSome = true := by
  unfold findJob
  rw [List.find?_isSome]
  exact ⟨r, h, by rw [beq_iff_eq]⟩

lemma findJob_isSome_mem_ids {l : List JobRecord} {jid : String}
    (h : (findJob l jid).isSome = true) : jid ∈ l.map (fun r => r.jobId) := by
  rw [Option.isSome_iff_exists] at h
  obtain ⟨r, hr⟩ := h
  have hmem : r ∈ l := List.mem_of_find?_eq_some hr
  have hid := findJob_some_jobId hr
  exact hid ▸ List.mem_map.mpr ⟨r, hmem, rfl⟩

lemma singleLocation_all {st : AgencyStore} (h : singleLocation st) :
    ∀ jid, locCount st jid ≤ 1 := by
  intro jid
  by_cases hjid : jid ∈ storeJobIds st
  · exact h jid hjid
  · have h1 : (findJob st.toDo jid).isSome = false := by
      by_contra hh
      rw [Bool.not_eq_false] at hh
      exact hjid (by
        unfold storeJobIds
        exact List.mem_append_left _ (List.mem_append_left _
          (List.mem_append_left _ (findJob_isSome_mem_ids hh))))
    have h2 : (findJob st.pending jid).isSome = false := by
      by_contra hh
      rw [Bool.not_eq_false] at hh
      exact hjid (by
        unfold storeJobIds
        exact List.mem_append_left _ (List.mem_append_left _
          (List.mem_append_right _ (findJob_isSome_mem_ids hh))))
    have h3 : (findJob st.finished jid).isSome = false := by
      by_contra hh
      rw [Bool.not_eq_false] at hh
      exact hjid (by
        unfold storeJobIds
        exact List.mem_append_left _ (List.mem_append_right _ (findJob_isSome_mem_ids hh)))
    have h4 : (findJob st.failed jid).isSome = false := by
      by_contra hh
      rw [Bool.not_eq_false] at hh
      exact hjid (by
        unfold storeJobIds
        exact List.mem_append_right _ (findJob_isSome_mem_ids hh))
    unfold locCount
    rw [h1, h2, h3, h4]
    decide

lemma computeState_ne_toDo (cs : ClusterState) (t : ServerId) (st : AgencyStore) :
    computeState cs t st ≠ JobLoc.toDo := by
  unfold computeState
  split
  · exact fun h => JobLoc.noConfusion h
  · split
    · exact fun h => JobLoc.noConfusion h
    · exact fun h => JobLoc.noConfusion h

lemma locateJob_eq_pending {st : AgencyStore} {jid : String} {r : JobRecord}
    (h : locateJob st jid = some (JobLoc.pending, r)) :
    findJob st.toDo jid = none ∧ findJob st.pending jid = some r := by
  unfold locateJob at h
  cases h1 : findJob st.toDo jid with
  | some r1 => rw [h1] at h; simp at h
  | none =>
    rw [h1] at h
    cases h2 : findJob st.pending jid with
    | some r2 =>
      rw [h2] at h
      simp only [Option.some.injEq, Prod.mk.injEq] at h
      exact ⟨rfl, by rw [h.2]⟩
    | none =>
      rw [h2] at h
      cases h3 : findJob st.finished jid with
      | some r3 => rw [h3] at h; simp at h
      | none =>
        rw [h3] at h
        cases h4 : findJob st.failed jid with
        | some r4 => rw [h4] at h; simp at h
        | none => rw [h4] at h; simp at h

lemma bool_sum_first {a b c d : Bool}
    (h : a.toNat + b.toNat + c.toNat + d.toNat ≤ 1) (ha : a = true) :
    b = false ∧ c = false ∧ d = false := by
  subst ha
  cases b <;> cases c <;> cases d <;> simp_all [Bool.toNat]

lemma bool_sum_second {a b c d : Bool}
    (h : a.toNat + b.toNat + c.toNat + d.toNat ≤ 1) (hb : b = true) :
    a = false ∧ c = false ∧ d = false := by
  subst hb
  cases a <;> cases c <;> cases d <;> simp_all [Bool.toNat]

lemma create_locCount_le (cs : ClusterState) (rec : JobRecord) (st : AgencyStore)
    (h : singleLocation st) : ∀ jid, locCount (create cs rec st).2 jid ≤ 1 := by
  intro jid
  unfold create
  by_cases hmem : rec ∈ st.toDo
  · rw [if_pos hmem]
    have hsrc : (findJob st.toDo rec.jobId).isSome = true := findJob_isSome_of_mem hmem
    have hsum := singleLocation_all h rec.jobId
    unfold locCount at hsum
    obtain ⟨hb, hc, hd⟩ := bool_sum_first hsum hsrc
    by_cases hfeas : checkFeasibility cs rec.server = true
    · rw [if_pos hfeas]
      by_cases hjid : jid = rec.jobId
      · subst hjid
        unfold locCount
        dsimp only
        rw [findJob_removeJob_self, findJob_cons_self rec st.pending rec.jobId rfl, hc, hd]
        simp
      · unfold locCount
        dsimp only
        rw [findJob_removeJob_ne st.toDo rec.jobId jid hjid,
          findJob_cons_ne rec st.pending jid (fun he => hjid he.symm)]
        exact singleLocation_all h jid
    · rw [if_neg hfeas]
      by_cases hjid : jid = rec.jobId
      · subst hjid
        unfold locCount
        dsimp only
        rw [findJob_removeJob_self, hb, hc,
          findJob_cons_self
            { rec with reason := "capacity: replication factor cannot be maintained" }
            st.failed rec.jobId rfl]
        simp
      · unfold locCount
        dsimp only
        rw [findJob_removeJob_ne st.toDo rec.jobId jid hjid,
          findJob_cons_ne
            { rec with reason := "capacity: replication factor cannot be maintained" }
            st.failed jid (fun he => hjid he.symm)]
        exact singleLocation_all h jid
  · rw [if_neg hmem]
    exact singleLocation_all h jid

lemma start_snd_locCount (cs : ClusterState) (rec : JobRecord) (st : AgencyStore)
    (jid : String) : locCount (start cs rec st).2 jid = locCount st jid := by
  unfold start
  cases hp : findJob st.pending rec.jobId with
  | some r => rfl
  | none => rfl

lemma status_locCount_le (cs : ClusterState) (jid2 : String) (st : AgencyStore)
    (h : singleLocation st) : ∀ jid, locCount (status cs jid2 st).2 jid ≤ 1 := by
  intro jid
  cases hloc : locateJob st jid2 with
  | none =>
    have h1 : status cs jid2 st = (none, st) := by
      unfold status; rw [hloc]
    rw [h1]
    exact singleLocation_all h jid
  | some pr =>
    obtain ⟨loc, r⟩ := pr
    cases loc with
    | toDo =>
      have h1 : status cs jid2 st = (some JobLoc.toDo, st) := by
        unfold status; rw [hloc]
      rw [h1]
      exact singleLocation_all h jid
    | finished =>
      have h1 : status cs jid2 st = (some JobLoc.finished, st) := by
        unfold status; rw [hloc]
      rw [h1]
      exact singleLocation_all h jid
    | failed =>
      have h1 : status cs jid2 st = (some JobLoc.failed, st) := by
        unfold status; rw [hloc]
      rw [h1]
      exact singleLocation_all h jid
    | pending =>
      obtain ⟨htodo, hpend⟩ := locateJob_eq_pending hloc
      have hrid : r.jobId = jid2 := findJob_some_jobId hpend
      have hsum := singleLocation_all h jid2
      unfold locCount at hsum
      have hpendsome : (findJob st.pending jid2).isSome = true := by
        rw [hpend]; rfl
      obtain ⟨ha, hc, hd⟩ := bool_sum_second hsum hpendsome
      cases hcomp : computeState cs r.server st with
      | toDo =>
        have h1 : status cs jid2 st = (some JobLoc.pending, st) := by
          unfold status; rw [hloc]; dsimp only; rw [hcomp]
        rw [h1]
        exact singleLocation_all h jid
      | pending =>
        have h1 : status cs jid2 st = (some JobLoc.pending, st) := by
          unfold status; rw [hloc]; dsimp only; rw [hcomp]
        rw [h1]
        exact singleLocation_all h jid
      | finished =>
        have h1 : status cs jid2 st =
            (some JobLoc.finished,
              { st with pending := removeJob st.pending jid2, finished := r :: st.finished }) := by
          unfold status; rw [hloc]; dsimp only; rw [hcomp]
        rw [h1]
        by_cases hjid : jid = jid2
        · subst hjid
          unfold locCount
          dsimp only
          rw [ha, findJob_removeJob_self, findJob_cons_self r st.finished jid hrid, hd]
          simp
        · unfold locCount
          dsimp only
          rw [findJob_removeJob_ne st.pending jid2 jid hjid,
            findJob_cons_ne r st.finished jid (fun he => hjid (hrid ▸ he).symm)]
          exact singleLocation_all h jid
      | failed =>
        have h1 : status cs jid2 st =
            (some JobLoc.failed,
              { st with pending := removeJob st.pending jid2, failed := r :: st.failed }) := by
          unfold status; rw [hloc]; dsimp only; rw [hcomp]
        rw [h1]
        by_cases hjid : jid = jid2
        · subst hjid
          unfold locCount
          dsimp only
          rw [ha, findJob_removeJob_self, hc, findJob_cons_self r st.failed jid hrid]
          simp
        · unfold locCount
          dsimp only
          rw [findJob_removeJob_ne st.pending jid2 jid hjid,
            findJob_cons_ne r st.failed jid (fun he => hjid (hrid ▸ he).symm)]
          exact singleLocation_all h jid

lemma status_status (cs : ClusterState) (jid : String) (st : AgencyStore)
    (h : singleLocation st) :
    status cs jid ((status cs jid st).2) = status cs jid st := by
  cases hloc : locateJob st jid with
  | none =>
    have h1 : status cs jid st = (none, st) := by
      unfold status; rw [hloc]
    rw [h1]
    exact h1
  | some pr =>
    obtain ⟨loc, r⟩ := pr
    cases loc with
    | toDo =>
      have h1 : status cs jid st = (some JobLoc.toDo, st) := by
        unfold status; rw [hloc]
      rw [h1]
      exact h1
    | finished =>
      have h1 : status cs jid st = (some JobLoc.finished, st) := by
        unfold status; rw [hloc]
      rw [h1]
      exact h1
    | failed =>
      have h1 : status cs jid st = (some JobLoc.failed, st) := by
        unfold status; rw [hloc]
      rw [h1]
      exact h1
    | pending =>
      obtain ⟨htodo, hpend⟩ := locateJob_eq_pending hloc
      have hrid : r.jobId = jid := findJob_some_jobId hpend
      have hsum := singleLocation_all h jid
      unfold locCount at hsum
      have hpendsome : (findJob st.pending jid).isSome = true := by
        rw [hpend]; rfl
      obtain ⟨ha, hc, hd⟩ := bool_sum_second hsum hpendsome
      have hfin_none : findJob st.finished jid = none := by
        cases hfin : findJob st.finished jid with
        | none => rfl
        | some rf => rw [hfin] at hc; exact Bool.noConfusion hc
      cases hcomp : computeState cs r.server st with
      | toDo => exact absurd hcomp (computeState_ne_toDo cs r.server st)
      | pending =>
        have h1 : status cs jid st = (some JobLoc.pending, st) := by
          unfold status; rw [hloc]; dsimp only; rw [hcomp]
        rw [h1]
        exact h1
      | finished =>
        have h1 : status cs jid st =
            (some JobLoc.finished,
              { st with pending := removeJob st.pending jid, finished := r :: st.finished }) := by
          unfold status; rw [hloc]; dsimp only; rw [hcomp]
        have hloc2 : locateJob
            ({ st with pending := removeJob st.pending jid, finished := r :: st.finished }) jid =
            some (JobLoc.finished, r) := by
          unfold locateJob
          dsimp only
          rw [htodo, findJob_removeJob_self, findJob_cons_self r st.finished jid hrid]
        have h2 : status cs jid
            ({ st with pending := removeJob st.pending jid, finished := r :: st.finished }) =
            (some JobLoc.finished,
              { st with pending := removeJob st.pending jid, finished := r :: st.finished }) := by
          unfold status; rw [hloc2]
        rw [h1]
        exact h2
      | failed =>
        have h1 : status cs jid st =
            (some JobLoc.failed,
              { st with pending := removeJob st.pending jid, failed := r :: st.failed }) := by
          unfold status; rw [hloc]; dsimp only; rw [hcomp]
        have hloc2 : locateJob
            ({ st with pending := removeJob st.pending jid, failed := r :: st.failed }) jid =
            some (JobLoc.failed, r) := by
          unfold locateJob
          dsimp only
          rw [htodo, findJob_removeJob_self, hfin_none, findJob_cons_self r st.failed jid hrid]
        have h2 : status cs jid
            ({ st with pending := removeJob st.pending jid, failed := r :: st.failed }) =
            (some JobLoc.failed,
              { st with pending := removeJob st.pending jid, failed := r :: st.failed }) := by
          unfold status; rw [hloc2]
        rw [h1]
        exact h2

instance (st : AgencyStore) : Decidable (singleLocation st) :=
  inferInstanceAs (Decidable (∀ jid ∈ storeJobIds st, locCount st jid ≤ 1))

/-- An operation a supervision pass may run against the store. -/
inductive JobOp
  | opStatus (jid : String)
  | opCreate (rec : JobRecord)
  | opStart (rec : JobRecord)
  deriving DecidableEq, Repr

/-- Store effect of one job operation (one atomic transaction). -/
def applyOp (cs : ClusterState) (st : AgencyStore) : JobOp → AgencyStore
  | JobOp.opStatus jid => (status cs jid st).2
  | JobOp.opCreate rec => (create cs rec st).2
  | JobOp.opStart rec => (start cs rec st).2

/-- Store reached by a sequence of job operations. -/
def applyOps (cs : ClusterState) (st : AgencyStore) (ops : List JobOp) : AgencyStore :=
  ops.foldl (applyOp cs) st

lemma applyOp_preserves (cs : ClusterState) (st : AgencyStore) (op : JobOp)
    (h : singleLocation st) : singleLocation (applyOp cs st op) := by
  cases op with
  | opStatus jid2 => exact fun jid _ => status_locCount_le cs jid2 st h jid
  | opCreate rec => exact fun jid _ => create_locCount_le cs rec st h jid
  | opStart rec =>
    exact fun jid _ => by
      show locCount (start cs rec st).2 jid ≤ 1
      rw [start_snd_locCount]
      exact singleLocation_all h jid

/-- C6: single-location invariant.  From any store in which each jobId is
present under at most one of ToDo, Pending, Finished, Failed, every store
reachable by the job operations status()/create()/start() — each of which
moves a record by deleting it from the old collection and inserting it at
the new one in one atomic transaction — still satisfies the invariant. -/
theorem single_location_invariant (cs : ClusterState) (st : AgencyStore)
    (ops : List JobOp) (h : singleLocation st) :
    singleLocation (applyOps cs st ops) := by
  induction ops generalizing st with
  | nil => exact h
  | cons op rest ih => exact ih (applyOp cs st op) (applyOp_preserves cs st op h)

/-- The example ToDo record asking to clean out server "S". -/
def recJ1 : JobRecord := ⟨"j1", "admin", "S", ""⟩

/-- Store holding only the ToDo record. -/
def stEx : AgencyStore := ⟨[recJ1], [], [], [], []⟩

/-- Store holding the record under Finished. -/
def stFin : AgencyStore := ⟨[], [], [recJ1], [], []⟩

/-- Witness for C6 on a run create-start-status from the ToDo store. -/
theorem single_location_invariant_witness :
    singleLocation (applyOps csThree stEx
      [JobOp.opCreate recJ1, JobOp.opStart recJ1, JobOp.opStatus "j1"]) :=
  single_location_invariant csThree stEx
    [JobOp.opCreate recJ1, JobOp.opStart recJ1, JobOp.opStatus "j1"] (by decide)

/-- The store-effect part of `status()`. -/
def statusStore (cs : ClusterState) (jid : String) (st : AgencyStore) : AgencyStore :=
  (status cs jid st).2

lemma statusStore_fix (cs : ClusterState) (jid : String) (st : AgencyStore)
    (h : singleLocation st) :
    statusStore cs jid (statusStore cs jid st) = statusStore cs jid st :=
  congrArg Prod.snd (status_status cs jid st h)

lemma statusStore_iterate (cs : ClusterState) (jid : String) (st : AgencyStore)
    (h : singleLocation st) :
    ∀ k, 1 ≤ k → (statusStore cs jid)^[k] st = statusStore cs jid st := by
  intro k hk
  induction k with
  | zero => omega
  | succ m ih =>
    cases Nat.eq_zero_or_pos m with
    | inl h0 =>
      subst h0
      rw [Function.iterate_one]
    | inr hpos =>
      rw [Function.iterate_succ_apply', ih hpos]
      exact statusStore_fix cs jid st h

/-- C4: `status()` is idempotent on a store satisfying the data model's
single-location invariant: N ≥ 1 calls with no intervening store change
leave the store exactly as one call does (after the first call no further
transaction takes effect), and every one of the N calls reports the same
state value. -/
theorem status_idempotent (cs : ClusterState) (jid : String) (st : AgencyStore)
    (h : singleLocation st) (n : Nat) (hn : 1 ≤ n) :
    (statusStore cs jid)^[n] st = statusStore cs jid st ∧
      ∀ k, k < n →
        (status cs jid ((statusStore cs jid)^[k] st)).1 = (status cs jid st).1 := by
  refine ⟨statusStore_iterate cs jid st h n hn, ?_⟩
  intro k hk
  cases k with
  | zero => rfl
  | succ m =>
    rw [statusStore_iterate cs jid st h (m + 1) (Nat.succ_le_succ (Nat.zero_le m))]
    exact congrArg Prod.fst (status_status cs jid st h)

/-- Witness for C4: three status() calls on the ToDo store. -/
theorem status_idempotent_witness :
    singleLocation stEx ∧
      ((statusStore csTwo "j1")^[3] stEx = statusStore csTwo "j1" stEx ∧
        ∀ k, k < 3 →
          (status csTwo "j1" ((statusStore csTwo "j1")^[k] stEx)).1 =
            (status csTwo "j1" stEx).1) :=
  ⟨by decide, status_idempotent csTwo "j1" stEx (by decide) 3 (by decide)⟩

/-- C5: terminal stability.  Once the job record sits under Finished or
Failed (in a store satisfying the single-location invariant), create() and
start() return false and leave the whole store — in particular the record,
its location and its content — unchanged. -/
theorem terminal_records_stable (cs : ClusterState) (rec : JobRecord) (st : AgencyStore)
    (hsl : singleLocation st)
    (hterm : (findJob st.finished rec.jobId).isSome = true ∨
      (findJob st.failed rec.jobId).isSome = true) :
    create cs rec st = (false, st) ∧ start cs rec st = (false, st) := by
  have hsum := singleLocation_all hsl rec.jobId
  unfold locCount at hsum
  have htodo : (findJob st.toDo rec.jobId).isSome = false := by
    cases hx : (findJob st.toDo rec.jobId).isSome with
    | false => rfl
    | true =>
      obtain ⟨hb, hc, hd⟩ := bool_sum_first hsum hx
      rcases hterm with hf | hf
      · rw [hf] at hc
        exact Bool.noConfusion hc
      · rw [hf] at hd
        exact Bool.noConfusion hd
  have hpend : (findJob st.pending rec.jobId).isSome = false := by
    cases hx : (findJob st.pending rec.jobId).isSome with
    | false => rfl
    | true =>
      obtain ⟨ha, hc, hd⟩ := bool_sum_second hsum hx
      rcases hterm with hf | hf
      · rw [hf] at hc
        exact Bool.noConfusion hc
      · rw [hf] at hd
        exact Bool.noConfusion hd
  constructor
  · unfold create
    rw [if_neg ?hmem]
    case hmem =>
      intro hin
      have hsome := findJob_isSome_of_mem hin
      rw [hsome] at htodo
      exact Bool.noConfusion htodo
  · unfold start
    have hnone : findJob st.pending rec.jobId = none := by
      cases hx : findJob st.pending rec.jobId with
      | none => rfl
      | some r =>
        rw [hx] at hpend
        exact Bool.noConfusion hpend
    rw [hnone]

/-- Witness for C5 with the record stored under Finished. -/
theorem terminal_records_stable_witness :
    ((findJob stFin.finished recJ1.jobId).isSome = true ∨
        (findJob stFin.failed recJ1.jobId).isSome = true) ∧
      (create csTwo recJ1 stFin = (false, stFin) ∧
        start csTwo recJ1 stFin = (false, stFin)) :=
  ⟨Or.inl (by decide),
    terminal_records_stable csTwo recJ1 stFin (by decide) (Or.inl (by decide))⟩

/-- C3 counterexample: on the infeasible two-server snapshot, `create()`
for the ToDo record returns false but does NOT leave the store unchanged —
the record is moved from ToDo to Failed, as the spec's own CleanOutServer
section and failure scenario prescribe. -/
theorem create_infeasible_mutates_store :
    checkFeasibility csTwo recJ1.server = false ∧
      (create csTwo recJ1 stEx).1 = false ∧
      (create csTwo recJ1 stEx).2 ≠ stEx := by decide

/-- C3 (amended): when the feasibility check fails, `create()` returns
false and never promotes the record to Pending; atomically, in one
transaction, either the store is left entirely unchanged (ToDo precondition
rejected) or the job record is moved from ToDo to Failed with a capacity
reason — no other write takes effect. -/
theorem create_infeasible_failure (cs : ClusterState) (rec : JobRecord) (st : AgencyStore)
    (h : checkFeasibility cs rec.server = false) :
    (create cs rec st).1 = false ∧
      (create cs rec st).2.pending = st.pending ∧
      ((create cs rec st).2 = st ∨
        (create cs rec st).2 =
          { st with
            toDo := removeJob st.toDo rec.jobId
            failed :=
              { rec with reason := "capacity: replication factor cannot be maintained" }
                :: st.failed }) := by
  unfold create
  by_cases hmem : rec ∈ st.toDo
  · rw [if_pos hmem, if_neg (by
      rw [h]
      exact fun hh => Bool.noConfusion hh)]
    exact ⟨rfl, rfl, Or.inr rfl⟩
  · rw [if_neg hmem]
    exact ⟨rfl, rfl, Or.inl rfl⟩

/-- Witness for the amended C3 on the infeasible two-server snapshot. -/
theorem create_infeasible_failure_witness :
    checkFeasibility csTwo recJ1.server = false ∧
      ((create csTwo recJ1 stEx).1 = false ∧
        (create csTwo recJ1 stEx).2.pending = stEx.pending ∧
        ((create csTwo recJ1 stEx).2 = stEx ∨
          (create csTwo recJ1 stEx).2 =
            { stEx with
              toDo := removeJob stEx.toDo recJ1.jobId
              failed :=
                { recJ1 with reason := "capacity: replication factor cannot be maintained" }
                  :: stEx.failed })) :=
  ⟨by decide, create_infeasible_failure csTwo recJ1 stEx (by decide)⟩

/-- C7: at-most-one activation.  The store orders the two transactions of
two racing create() calls built from the same snapshot; under either
serialization the first applied transaction succeeds (the record moves to
Pending) and the second is rejected by the ToDo precondition, changing
nothing.  Both calls here are the same function of the same snapshot, so
the two serialization orders are one and the same composition. -/
theorem create_at_most_one (cs : ClusterState) (rec : JobRecord) (st : AgencyStore)
    (hmem : rec ∈ st.toDo) (hfeas : checkFeasibility cs rec.server = true) :
    (create cs rec st).1 = true ∧
      findJob (create cs rec st).2.pending rec.jobId = some rec ∧
      (create cs rec (create cs rec st).2).1 = false ∧
      (create cs rec (create cs rec st).2).2 = (create cs rec st).2 := by
  have h1 : create cs rec st =
      (true, { st with toDo := removeJob st.toDo rec.jobId, pending := rec :: st.pending }) := by
    unfold create
    rw [if_pos hmem, if_pos hfeas]
  have hnotmem : rec ∉ removeJob st.toDo rec.jobId := by
    intro hin
    unfold removeJob at hin
    rw [List.mem_filter] at hin
    have hbne := hin.2
    rw [bne_iff_ne] at hbne
    exact hbne rfl
  have h2 : create cs rec
      ({ st with toDo := removeJob st.toDo rec.jobId, pending := rec :: st.pending }) =
      (false, { st with toDo := removeJob st.toDo rec.jobId, pending := rec :: st.pending }) := by
    unfold create
    dsimp only
    rw [if_neg hnotmem]
  rw [h1]
  dsimp only
  rw [h2]
  exact ⟨rfl, findJob_cons_self rec st.pending rec.jobId rfl, rfl, rfl⟩

/-- Witness for C7 on the feasible three-server snapshot. -/
theorem create_at_most_one_witness :
    (create csThree recJ1 stEx).1 = true ∧
      findJob (create csThree recJ1 stEx).2.pending recJ1.jobId = some recJ1 ∧
      (create csThree recJ1 (create csThree recJ1 stEx).2).1 = false ∧
      (create csThree recJ1 (create csThree recJ1 stEx).2).2 =
        (create csThree recJ1 stEx).2 :=
  create_at_most_one csThree recJ1 stEx (by decide) (by decide)

end Arango
